import Mathlib

/-!
Shallow embedding of `src/script.js` (L'Oréal routine builder):
the selection-state manager (a JS `Map` from product id to product record,
persisted in `localStorage`) and the conversation-driven chat pipeline
(`conversationMessages`, the chat-form submit handler and the
generate-routine click handler).

JS `Map` objects preserve insertion order, so the Selection Store is
modelled as an association list `List (Nat × Product)` in insertion order.
`localStorage` holds, under the fixed key "selectedProducts", a string that
`JSON.parse` turns back into a value; the storage cell is modelled at the
parsed-value level (`Raw`), covering the cases the script distinguishes:
absent/empty content (`!raw`), content on which `JSON.parse` throws,
parsed content that is not iterable (so `arr.forEach` throws after
`selectedProducts.clear()` already ran), and a parsed array of product
records.
-/

/-- A product record as loaded from `products.json`
(id, name, brand, category, image, description). -/
structure Product where
  id : Nat
  name : String
  brand : String
  category : String
  image : String
  description : String
deriving DecidableEq, Repr

/-- A conversation turn / chat bubble: `{ role, content }`. -/
structure Msg where
  role : String
  content : String
deriving DecidableEq, Repr

/-- JS `Map.has`. -/
def mapHas (m : List (Nat × Product)) (k : Nat) : Bool :=
  (m.lookup k).isSome

/-- JS `Map.set`: updates the value in place when the key is present
(preserving insertion order; a `Map` holds each key at most once, so
replacing the first occurrence is the `Map` semantics), otherwise appends
a new entry. -/
def mapSet (m : List (Nat × Product)) (k : Nat) (v : Product) : List (Nat × Product) :=
  match m with
  | [] => [(k, v)]
  | kv :: rest => if kv.1 = k then (k, v) :: rest else kv :: mapSet rest k v

/-- JS `Map.delete`: removes the entry with the given key, if any. -/
def mapDelete (m : List (Nat × Product)) (k : Nat) : List (Nat × Product) :=
  m.filter (fun kv => kv.1 ≠ k)

/-- Parsed-value view of the `localStorage` cell under "selectedProducts". -/
inductive Raw where
  /-- `getItem` returned `null` (or an empty string): `!raw` is true. -/
  | missing
  /-- `JSON.parse(raw)` throws. -/
  | unparseable
  /-- `JSON.parse(raw)` succeeds but the result has no `forEach`
  (not an array), so iteration throws after the store was cleared. -/
  | parsedNonArray
  /-- `JSON.parse(raw)` yields an array of product records. -/
  | parsedArray (arr : List Product)
deriving DecidableEq, Repr

/-- `saveSelectedProducts`: serializes `Array.from(selectedProducts.values())`
under the fixed key. The stored value, seen through `JSON.parse`, is the
values list. -/
def saveSelectedProducts (sel : List (Nat × Product)) : Raw :=
  Raw.parsedArray (sel.map Prod.snd)

/-- Outcome of `loadSelectedFromStorage`: the resulting `selectedProducts`
contents, whether `console.warn` ran, and whether `renderSelectedProducts`
ran. The function never lets an exception escape (the whole body is inside
`try ... catch`), which the embedding reflects by being total. -/
structure LoadResult where
  store : List (Nat × Product)
  warned : Bool
  rendered : Bool
deriving DecidableEq, Repr

/-- `loadSelectedFromStorage`, acting on the current `selectedProducts`
contents `pre`: on missing content it renders and returns (no clear, no
warning); on a parse failure it warns and renders (the `clear()` was never
reached); on a non-iterable parse result the store was already cleared
when `forEach` throws, then it warns and renders; on an array it clears
and re-inserts each `p` under `p.id`, then renders. -/
def loadSelectedFromStorage (pre : List (Nat × Product)) : Raw → LoadResult
  | Raw.missing => ⟨pre, false, true⟩
  | Raw.unparseable => ⟨pre, true, true⟩
  | Raw.parsedNonArray => ⟨[], true, true⟩
  | Raw.parsedArray arr => ⟨arr.foldl (fun m p => mapSet m p.id p) [], false, true⟩

/-- The selected-products panel as `renderSelectedProducts` paints it:
a placeholder when nothing is selected, else one chip per stored value,
in store order. -/
inductive SelectedView where
  | placeholder
  | chips (items : List Product)
deriving DecidableEq, Repr

/-- `renderSelectedProducts` as a pure projection of the store. -/
def renderSelectedProducts (sel : List (Nat × Product)) : SelectedView :=
  if sel.isEmpty then SelectedView.placeholder
  else SelectedView.chips (sel.map Prod.snd)

/-- Side effects a Selection Store mutation performs, in order:
a persistence write (`ok` = whether the `try` body succeeded; a failure is
caught and logged inside `saveSelectedProducts`) and a re-render of the
selected-products panel. -/
inductive Effect where
  | save (ok : Bool)
  | renderSelected
deriving DecidableEq, Repr

/-- `RemoteOutcome`: how the awaited `sendMessageToOpenAI` call ends —
either the worker's `data.content` reply, or a thrown error (network
failure or the `Worker error: ...` thrown on a non-ok response) whose
`message` is `errMsg`. -/
inductive RemoteOutcome where
  | success (reply : String)
  | failure (errMsg : String)
deriving DecidableEq, Repr

/-- The script's mutable state: `selectedProducts`,
`window.__lastDisplayedProducts`, the `localStorage` cell,
`conversationMessages`, the chat-window bubbles, the list of request
payloads handed to `fetch(WORKER_URL, ...)` (one entry per network call,
each the `messages` array sent), and the two button-disabled flags. -/
structure AppState where
  selected : List (Nat × Product)
  displayed : List Product
  storage : Raw
  conversation : List Msg
  transcript : List Msg
  payloads : List (List Msg)
  sendDisabled : Bool
  genDisabled : Bool
deriving DecidableEq, Repr

/-- `toggleSelect(productId, card)`: resolves the product from
`window.__lastDisplayedProducts`; if unresolvable, returns with no effect.
Otherwise deletes or inserts the entry, then persists
(`saveSelectedProducts`, whose success is `saveOk`; on failure the storage
cell is unchanged) and re-renders. Returns the new state and the ordered
effect trace. -/
def toggleSelect (st : AppState) (productId : Nat) (saveOk : Bool) :
    AppState × List Effect :=
  match st.displayed.find? (fun p => p.id = productId) with
  | none => (st, [])
  | some product =>
    let sel :=
      if mapHas st.selected productId then mapDelete st.selected productId
      else mapSet st.selected productId product
    let storage := if saveOk then saveSelectedProducts sel else st.storage
    ({ st with selected := sel, storage := storage },
     [Effect.save saveOk, Effect.renderSelected])

/-- The chip-remove click handler attached by `renderSelectedProducts`:
unconditionally deletes the id, un-highlights the card, then calls
`renderSelectedProducts()` and only afterwards `saveSelectedProducts()`. -/
def chipRemoveClick (st : AppState) (id : Nat) (saveOk : Bool) :
    AppState × List Effect :=
  let sel := mapDelete st.selected id
  let storage := if saveOk then saveSelectedProducts sel else st.storage
  ({ st with selected := sel, storage := storage },
   [Effect.renderSelected, Effect.save saveOk])

/-- The fixed opening system turn of `conversationMessages`. -/
def systemMsg : Msg :=
  ⟨"system",
   "You are a helpful L\x27Oréal assistant that provides step-by-step routines and product guidance when asked. Keep answers concise and user-friendly. Keep conversations to those beauty-related topics and don\x27t respond to unrelated questions."⟩

/-- The placeholder bubble text appended while a request is in flight. -/
def thinkingText : String := "...thinking..."

/-- The advisory shown when routine generation is triggered with an empty
selection. -/
def advisoryText : String :=
  "Please select at least one product to generate a routine."

/-- One character of JSON string escaping as `JSON.stringify` performs it. -/
def jsonEscapeChar (c : Char) : String :=
  if c = '"' then "\\\""
  else if c = '\\' then "\\\\"
  else if c = '\n' then "\\n"
  else if c = '\t' then "\\t"
  else if c = '\r' then "\\r"
  else String.singleton c

/-- A JSON string literal for `s`. -/
def jsonString (s : String) : String :=
  "\"" ++ String.join (s.toList.map jsonEscapeChar) ++ "\""

/-- One element of `JSON.stringify(items, null, 2)`: the six fields kept by
`getSelectedProductsArray`, at indent level 1 inside the array. -/
def jsonOfItem (p : Product) : String :=
  "\x7b\n    \"id\": " ++ toString p.id ++
  ",\n    \"brand\": " ++ jsonString p.brand ++
  ",\n    \"name\": " ++ jsonString p.name ++
  ",\n    \"category\": " ++ jsonString p.category ++
  ",\n    \"image\": " ++ jsonString p.image ++
  ",\n    \"description\": " ++ jsonString p.description ++
  "\n  \x7d"

/-- `JSON.stringify(items, null, 2)` for a non-empty array of items
(the empty case is short-circuited before stringification). -/
def jsonOfItems (ps : List Product) : String :=
  if ps.isEmpty then "[]"
  else "[\n  " ++ String.intercalate ",\n  " (ps.map jsonOfItem) ++ "\n]"

/-- `getSelectedProductsArray()`: the store's values, each reduced to the
six payload fields (the record itself in this embedding). -/
def getSelectedProductsArray (sel : List (Nat × Product)) : List Product :=
  sel.map Prod.snd

/-- The synthesized user instruction of the generate-routine handler. -/
def userInstruction (items : List Product) : String :=
  "Here are the selected products as JSON. Generate a step-by-step routine using these products, include application order, timing (AM/PM), any compatibility notes or cautions, and a short explanation for each step. Respond in plain text.\n\nSELECTED_PRODUCTS_JSON:\n"
  ++ jsonOfItems items

/-- Replace the content of the first bubble with role "assistant" in the
given (reversed-order-of-search) list. Helper for
`replaceLastAssistant`. -/
def replaceFirstAssistant (txt : String) : List Msg → List Msg
  | [] => []
  | m :: rest =>
    if m.role = "assistant" then Msg.mk m.role txt :: rest
    else m :: replaceFirstAssistant txt rest

/-- The `querySelectorAll(".chat-message.assistant")` reconciliation: if any
assistant bubble exists, overwrite the content of the last one; otherwise
append a fresh assistant bubble. -/
def replaceLastAssistant (tr : List Msg) (txt : String) : List Msg :=
  if tr.any (fun m => m.role = "assistant") then
    (replaceFirstAssistant txt tr.reverse).reverse
  else tr ++ [Msg.mk "assistant" txt]

/-- JS `String.prototype.trim`: strips leading and trailing whitespace. -/
def jsTrim (s : String) : String :=
  String.mk
    (((s.toList.dropWhile Char.isWhitespace).reverse.dropWhile
        Char.isWhitespace).reverse)

/-- The chat-form submit handler: trims the input (empty text is a no-op);
otherwise appends the user turn to transcript and conversation, disables
the send button, appends the thinking bubble, sends the full
`conversationMessages` array (recorded in `payloads`), then on success
overwrites the last assistant bubble and appends the assistant turn to the
conversation, and on failure appends an `Error: ...` bubble to the
transcript only; finally re-enables the send button. -/
def chatSubmit (st : AppState) (text : String) (outcome : RemoteOutcome) :
    AppState :=
  let t := jsTrim text
  if t = "" then st
  else
    let st1 := { st with
      transcript := st.transcript ++ [Msg.mk "user" t],
      conversation := st.conversation ++ [Msg.mk "user" t],
      sendDisabled := true }
    let st2 := { st1 with
      transcript := st1.transcript ++ [Msg.mk "assistant" thinkingText],
      payloads := st1.payloads ++ [st1.conversation] }
    let st3 :=
      match outcome with
      | RemoteOutcome.success reply =>
        { st2 with
          transcript := replaceLastAssistant st2.transcript reply,
          conversation := st2.conversation ++ [Msg.mk "assistant" reply] }
      | RemoteOutcome.failure errMsg =>
        { st2 with
          transcript := st2.transcript ++ [Msg.mk "assistant" ("Error: " ++ errMsg)] }
    { st3 with sendDisabled := false }

/-- The generate-routine click handler: with an empty selection it appends
the advisory bubble and returns (no conversation push, no network call);
otherwise it pushes the synthesized user instruction onto the
conversation, shows a short user bubble and a thinking bubble, disables
the button, sends the full conversation, then reconciles exactly as the
chat handler does; finally re-enables the button. -/
def generateClick (st : AppState) (outcome : RemoteOutcome) : AppState :=
  let items := getSelectedProductsArray st.selected
  if items.length = 0 then
    { st with transcript := st.transcript ++ [Msg.mk "assistant" advisoryText] }
  else
    let st1 := { st with
      conversation := st.conversation ++ [Msg.mk "user" (userInstruction items)] }
    let st2 := { st1 with
      transcript := st1.transcript ++
        [Msg.mk "user" ("Generate routine for " ++ toString items.length ++
           " selected product(s)."),
         Msg.mk "assistant" thinkingText],
      genDisabled := true,
      payloads := st1.payloads ++ [st1.conversation] }
    let st3 :=
      match outcome with
      | RemoteOutcome.success reply =>
        { st2 with
          transcript := replaceLastAssistant st2.transcript reply,
          conversation := st2.conversation ++ [Msg.mk "assistant" reply] }
      | RemoteOutcome.failure errMsg =>
        { st2 with
          transcript := st2.transcript ++
            [Msg.mk "assistant" ("Error generating routine: " ++ errMsg)] }
    { st3 with genDisabled := false }

/-- `displayProducts(products)`: updates the Displayed-set reference
(`window.__lastDisplayedProducts`). Card markup is a DOM projection, not
tracked here. -/
def displayProducts (st : AppState) (ps : List Product) : AppState :=
  { st with displayed := ps }

/-- The user-driven events of the script. `saveOk` tells whether the
`localStorage.setItem` inside `saveSelectedProducts` succeeded. -/
inductive Event where
  | display (ps : List Product)
  | toggle (id : Nat) (saveOk : Bool)
  | chipRemove (id : Nat) (saveOk : Bool)
  | chat (text : String) (outcome : RemoteOutcome)
  | generate (outcome : RemoteOutcome)

/-- One handler invocation. -/
def step (st : AppState) : Event → AppState
  | Event.display ps => displayProducts st ps
  | Event.toggle id ok => (toggleSelect st id ok).1
  | Event.chipRemove id ok => (chipRemoveClick st id ok).1
  | Event.chat t o => chatSubmit st t o
  | Event.generate o => generateClick st o

/-- Script startup: `conversationMessages` holds the single system turn,
`selectedProducts` starts empty and `loadSelectedFromStorage()` runs
against the current storage content. -/
def initState (raw : Raw) : AppState :=
  { selected := (loadSelectedFromStorage [] raw).store
    displayed := []
    storage := raw
    conversation := [systemMsg]
    transcript := []
    payloads := []
    sendDisabled := false
    genDisabled := false }

/-- A state the script can be in after some sequence of handler runs. -/
def Reachable (st : AppState) : Prop :=
  ∃ (raw : Raw) (evs : List Event), evs.foldl step (initState raw) = st

/-- `n` successive `toggleSelect` invocations on the fixed id `i`;
`oks j` tells whether the persistence write of the `j`-th invocation
succeeded (membership never depends on it). -/
def toggleIter (i : Nat) (oks : Nat → Bool) : Nat → AppState → AppState
  | 0, st => st
  | Nat.succ n, st => toggleIter i oks n (toggleSelect st i (oks n)).1

/-- Well-formedness of a Selection Store as the script builds it: at most
one entry per identifier, and each entry keyed by its record's id
(`selectedProducts.set(productId, product)` with `product.id === productId`,
and `selectedProducts.set(p.id, p)` on load). -/
def StoreWF (S : List (Nat × Product)) : Prop :=
  (S.map Prod.fst).Nodup ∧ ∀ kv ∈ S, kv.1 = kv.2.id

/-- A sample catalog record, used by concrete instantiations. -/
def prodA : Product :=
  ⟨5, "Revitalift Serum", "LOreal Paris", "skincare", "serum.png",
   "A hydrating serum."⟩

/-- Startup state when storage holds the single-record selection
`[prodA]`: reachable, with a non-empty Selection Store. -/
def stA : AppState := initState (Raw.parsedArray [prodA])

/-- Startup on empty storage followed by displaying the catalog subset
`[prodA]`: reachable, `prodA` resolvable and unselected. -/
def stB : AppState := step (initState Raw.missing) (Event.display [prodA])

/-- Conversation-Log invariant maintained by every handler: the log opens
with the fixed system turn, no later turn carries the system role, and
every payload ever sent opened with the system turn. -/
def ConvInv (st : AppState) : Prop :=
  st.conversation.head? = some systemMsg ∧
  (∀ m ∈ st.conversation.tail, m.role ≠ "system") ∧
  (∀ p ∈ st.payloads, p.head? = some systemMsg)

theorem lookup_cons_self (k : Nat) (b : Product) (rest : List (Nat × Product)) :
    List.lookup k ((k, b) :: rest) = some b := by
  simp [List.lookup]

theorem lookup_cons_ne (k a : Nat) (b : Product) (rest : List (Nat × Product))
    (h : k ≠ a) : List.lookup k ((a, b) :: rest) = List.lookup k rest := by
  have hb : (k == a) = false := beq_eq_false_iff_ne.mpr h
  simp [List.lookup, hb]

theorem lookup_mapSet_self (m : List (Nat × Product)) (k : Nat) (v : Product) :
    (mapSet m k v).lookup k = some v := by
  induction m with
  | nil => simp [mapSet, lookup_cons_self]
  | cons kv rest ih =>
    by_cases h : kv.1 = k
    · simp [mapSet, h, lookup_cons_self]
    · simp only [mapSet, if_neg h]
      rw [lookup_cons_ne _ _ _ _ (fun he => h he.symm)]
      exact ih

theorem mapHas_mapSet_self (m : List (Nat × Product)) (k : Nat) (v : Product) :
    mapHas (mapSet m k v) k = true := by
  simp [mapHas, lookup_mapSet_self]

theorem lookup_mapDelete_self (m : List (Nat × Product)) (k : Nat) :
    (mapDelete m k).lookup k = none := by
  induction m with
  | nil => simp [mapDelete]
  | cons kv rest ih =>
    obtain ⟨a, b⟩ := kv
    by_cases h : a = k
    · simpa [mapDelete, List.filter, h] using ih
    · simp only [mapDelete, List.filter, decide_not, h, decide_False, Bool.not_false]
      rw [lookup_cons_ne _ _ _ _ (fun he => h he.symm)]
      simpa [mapDelete, List.filter] using ih

theorem mapHas_mapDelete_self (m : List (Nat × Product)) (k : Nat) :
    mapHas (mapDelete m k) k = false := by
  simp [mapHas, lookup_mapDelete_self]

theorem mapSet_of_lookup_none (m : List (Nat × Product)) (k : Nat) (v : Product)
    (h : m.lookup k = none) : mapSet m k v = m ++ [(k, v)] := by
  induction m with
  | nil => simp [mapSet]
  | cons kv rest ih =>
    obtain ⟨a, b⟩ := kv
    by_cases hk : k = a
    · rw [hk, lookup_cons_self] at h
      exact absurd h (by simp)
    · rw [lookup_cons_ne _ _ _ _ hk] at h
      have hne : ¬ a = k := fun he => hk he.symm
      simp only [mapSet, if_neg hne, List.cons_append]
      rw [ih h]

theorem lookup_append_of_none (l1 l2 : List (Nat × Product)) (k : Nat)
    (h : l1.lookup k = none) : (l1 ++ l2).lookup k = l2.lookup k := by
  induction l1 with
  | nil => simp
  | cons kv rest ih =>
    obtain ⟨a, b⟩ := kv
    by_cases hk : k = a
    · rw [hk, lookup_cons_self] at h
      exact absurd h (by simp)
    · rw [lookup_cons_ne _ _ _ _ hk] at h
      rw [List.cons_append, lookup_cons_ne _ _ _ _ hk]
      exact ih h

theorem foldl_mapSet_append (ps : List Product) :
    ∀ acc : List (Nat × Product),
      (∀ p ∈ ps, acc.lookup p.id = none) → (ps.map Product.id).Nodup →
      ps.foldl (fun m p => mapSet m p.id p) acc =
        acc ++ ps.map (fun p => (p.id, p)) := by
  induction ps with
  | nil => intro acc _ _; simp
  | cons p ps ih =>
    intro acc hacc hnd
    have hstep : mapSet acc p.id p = acc ++ [(p.id, p)] :=
      mapSet_of_lookup_none _ _ _ (hacc p (List.mem_cons_self _ _))
    have hnd' : (ps.map Product.id).Nodup := (List.nodup_cons.mp (by simpa using hnd)).2
    have hnotin : p.id ∉ ps.map Product.id := (List.nodup_cons.mp (by simpa using hnd)).1
    have hacc' : ∀ q ∈ ps, (acc ++ [(p.id, p)]).lookup q.id = none := by
      intro q hq
      have h1 : acc.lookup q.id = none := hacc q (List.mem_cons_of_mem _ hq)
      have h2 : q.id ≠ p.id := by
        intro he
        exact hnotin (he ▸ List.mem_map_of_mem Product.id hq)
      rw [lookup_append_of_none _ _ _ h1, lookup_cons_ne _ _ _ _ h2]
      simp
    calc (p :: ps).foldl (fun m q => mapSet m q.id q) acc
        = ps.foldl (fun m q => mapSet m q.id q) (acc ++ [(p.id, p)]) := by
          rw [List.foldl_cons, hstep]
      _ = (acc ++ [(p.id, p)]) ++ ps.map (fun q => (q.id, q)) := ih _ hacc' hnd'
      _ = acc ++ (p :: ps).map (fun q => (q.id, q)) := by
          simp [List.append_assoc]

theorem toggleSelect_displayed (st : AppState) (i : Nat) (ok : Bool) :
    (toggleSelect st i ok).1.displayed = st.displayed := by
  unfold toggleSelect
  cases h : st.displayed.find? (fun p => p.id = i) <;> simp

theorem toggleSelect_flips (st : AppState) (i : Nat) (ok : Bool)
    (h : (st.displayed.find? (fun p => p.id = i)).isSome = true) :
    mapHas (toggleSelect st i ok).1.selected i = !mapHas st.selected i := by
  obtain ⟨p, hp⟩ := Option.isSome_iff_exists.mp h
  have hid : p.id = i := by
    have := List.find?_some hp
    simpa using this
  unfold toggleSelect
  rw [hp]
  by_cases hm : mapHas st.selected i
  · simp [hm, mapHas_mapDelete_self]
  · simp only [Bool.not_eq_true] at hm
    simp [hm, mapHas_mapSet_self]

theorem toggleIter_mem (i : Nat) (oks : Nat → Bool) :
    ∀ (n : Nat) (st : AppState),
      (st.displayed.find? (fun p => p.id = i)).isSome = true →
      mapHas (toggleIter i oks n st).selected i =
        xor (mapHas st.selected i) (decide (n % 2 = 1)) := by
  intro n
  induction n with
  | zero => intro st _; simp [toggleIter]
  | succ n ih =>
    intro st hfind
    have hd : (toggleSelect st i (oks n)).1.displayed = st.displayed :=
      toggleSelect_displayed st i (oks n)
    have hfind' :
        ((toggleSelect st i (oks n)).1.displayed.find? (fun p => p.id = i)).isSome = true := by
      rw [hd]; exact hfind
    have hflip := toggleSelect_flips st i (oks n) hfind
    calc mapHas (toggleIter i oks (n + 1) st).selected i
        = mapHas (toggleIter i oks n (toggleSelect st i (oks n)).1).selected i := rfl
      _ = xor (mapHas (toggleSelect st i (oks n)).1.selected i) (decide (n % 2 = 1)) :=
          ih _ hfind'
      _ = xor (!mapHas st.selected i) (decide (n % 2 = 1)) := by rw [hflip]
      _ = xor (mapHas st.selected i) (decide ((n + 1) % 2 = 1)) := by
          have : decide ((n + 1) % 2 = 1) = !decide (n % 2 = 1) := by
            rcases Nat.mod_two_eq_zero_or_one n with h | h <;>
              simp [Nat.add_mod, h]
          rw [this]
          cases mapHas st.selected i <;> cases decide (n % 2 = 1) <;> rfl

/-- C1 (amended): for a fixed id that is resolvable from the Displayed-set
reference, starting from a state where the id is unselected, after any
sequence of `n` toggle operations on that id (with arbitrary persistence
outcomes) the membership of the id in the Selection Store equals the
parity of `n`: even = unselected, odd = selected. -/
theorem c1_toggle_parity (st : AppState) (i : Nat) (oks : Nat → Bool) (n : Nat)
    (hres : (st.displayed.find? (fun p => p.id = i)).isSome = true)
    (hinit : mapHas st.selected i = false) :
    mapHas (toggleIter i oks n st).selected i = decide (n % 2 = 1) := by
  rw [toggleIter_mem i oks n st hres, hinit]
  cases decide (n % 2 = 1) <;> rfl

/-- C1 counterexample: in the reachable state `stA` (id 5 restored from
storage, nothing displayed) the id is not resolvable, so two toggles — an
even number — leave the id selected, while the claim as stated requires it
to be unselected after any even number of toggles. -/
theorem c1_counterexample :
    2 % 2 = 0 ∧ mapHas (toggleIter 5 (fun _ => true) 2 stA).selected 5 = true :=
  ⟨rfl, by decide⟩

/-- Witness for `c1_toggle_parity` at `stB`, id 5, three toggles. -/
theorem c1_toggle_parity_witness :
    ((stB.displayed.find? (fun p => p.id = 5)).isSome = true ∧
      mapHas stB.selected 5 = false) ∧
    mapHas (toggleIter 5 (fun _ => true) 3 stB).selected 5 = decide (3 % 2 = 1) :=
  ⟨⟨by decide, by decide⟩, c1_toggle_parity stB 5 (fun _ => true) 3 (by decide) (by decide)⟩

/-- C9: when the id is not resolvable from the Displayed-set reference,
`toggleSelect` leaves the whole state — Selection Store, persisted
storage, and the selected-products projection — unchanged and performs no
side effect, even when the id is currently in the store. -/
theorem c9_unresolvable_toggle_frame (st : AppState) (i : Nat) (ok : Bool)
    (h : st.displayed.find? (fun p => p.id = i) = none) :
    toggleSelect st i ok = (st, []) ∧
    (toggleSelect st i ok).1.selected = st.selected ∧
    (toggleSelect st i ok).1.storage = st.storage ∧
    renderSelectedProducts (toggleSelect st i ok).1.selected =
      renderSelectedProducts st.selected := by
  have he : toggleSelect st i ok = (st, []) := by
    unfold toggleSelect
    rw [h]
  exact ⟨he, by rw [he], by rw [he], by rw [he]⟩

/-- Witness for `c9_unresolvable_toggle_frame` at `stA`: id 5 is in the
store but not displayed, and the toggle changes nothing. -/
theorem c9_unresolvable_toggle_frame_witness :
    (stA.displayed.find? (fun p => p.id = 5) = none ∧
      mapHas stA.selected 5 = true) ∧
    (toggleSelect stA 5 true = (stA, []) ∧
      (toggleSelect stA 5 true).1.selected = stA.selected ∧
      (toggleSelect stA 5 true).1.storage = stA.storage ∧
      renderSelectedProducts (toggleSelect stA 5 true).1.selected =
        renderSelectedProducts stA.selected) :=
  ⟨⟨by decide, by decide⟩, c9_unresolvable_toggle_frame stA 5 true (by decide)⟩

/-- C3 (amended): a resolvable toggle performs its side effects in the
order (1) persistence write, (2) re-render; chip removal performs them in
the opposite order, (1) re-render, (2) persistence write. In both cases
both effects are performed, in particular the re-render also happens when
the persistence write fails (`ok = false`). -/
theorem c3_effect_order (st : AppState) (i : Nat) (ok : Bool)
    (h : (st.displayed.find? (fun p => p.id = i)).isSome = true) :
    (toggleSelect st i ok).2 = [Effect.save ok, Effect.renderSelected] ∧
    (chipRemoveClick st i ok).2 = [Effect.renderSelected, Effect.save ok] := by
  obtain ⟨p, hp⟩ := Option.isSome_iff_exists.mp h
  constructor
  · unfold toggleSelect
    rw [hp]
  · rfl

/-- C3 counterexample: chip removal re-renders before it persists, so the
claimed order (persistence write first) is violated by the chip-removal
path. -/
theorem c3_counterexample :
    (chipRemoveClick stA 5 true).2 = [Effect.renderSelected, Effect.save true] ∧
    (chipRemoveClick stA 5 true).2 ≠ [Effect.save true, Effect.renderSelected] :=
  ⟨rfl, by decide⟩

/-- Witness for `c3_effect_order` at `stB` with a failing persistence
write: the re-render effect is still present in both traces. -/
theorem c3_effect_order_witness :
    (stB.displayed.find? (fun p => p.id = 5)).isSome = true ∧
    ((toggleSelect stB 5 false).2 = [Effect.save false, Effect.renderSelected] ∧
      (chipRemoveClick stB 5 false).2 = [Effect.renderSelected, Effect.save false]) :=
  ⟨by decide, c3_effect_order stB 5 false (by decide)⟩

/-- C2: for every well-formed Selection Store `S` (one entry per
identifier, each entry keyed by its record's id — the shape every store
built by the script has) and any prior store contents, `save(S)` followed
by `load()` rebuilds exactly `S`: the same identifier→record pairs (here
even in the same order). -/
theorem c2_save_load_round_trip (S pre : List (Nat × Product))
    (hwf : StoreWF S) (_hne : S ≠ []) :
    (loadSelectedFromStorage pre (saveSelectedProducts S)).store = S := by
  obtain ⟨hnd, hkeys⟩ := hwf
  simp only [saveSelectedProducts, loadSelectedFromStorage]
  have hids : (S.map Prod.snd).map Product.id = S.map Prod.fst := by
    rw [List.map_map]
    exact List.map_congr_left (fun kv hkv => (hkeys kv hkv).symm)
  have hnd' : ((S.map Prod.snd).map Product.id).Nodup := by
    rw [hids]; exact hnd
  rw [foldl_mapSet_append (S.map Prod.snd) [] (by intro p _; simp) hnd']
  rw [List.nil_append, List.map_map]
  have hid : ∀ kv ∈ S, ((fun p => (p.id, p)) ∘ Prod.snd) kv = id kv := by
    intro kv hkv
    simp only [Function.comp_apply, id_eq]
    rw [← hkeys kv hkv]
  rw [List.map_congr_left hid, List.map_id]

/-- Witness for `c2_save_load_round_trip` on the one-record store. -/
theorem c2_save_load_round_trip_witness :
    (StoreWF [(5, prodA)] ∧ [(5, prodA)] ≠ ([] : List (Nat × Product))) ∧
    (loadSelectedFromStorage [] (saveSelectedProducts [(5, prodA)])).store =
      [(5, prodA)] :=
  ⟨⟨⟨by decide, by decide⟩, by decide⟩,
   c2_save_load_round_trip [(5, prodA)] [] ⟨by decide, by decide⟩ (by decide)⟩

/-- C8 (amended): `loadSelectedFromStorage` never raises (it is total);
on missing content it leaves the store unchanged — empty at startup — and
logs no warning; on unparseable content it leaves the store unchanged and
logs a warning; on a parsed-but-not-iterable shape the store was cleared
before the failure, so it ends empty and a warning is logged. It renders
in every case. -/
theorem c8_load_degraded (pre : List (Nat × Product)) :
    loadSelectedFromStorage pre Raw.missing = ⟨pre, false, true⟩ ∧
    loadSelectedFromStorage pre Raw.unparseable = ⟨pre, true, true⟩ ∧
    loadSelectedFromStorage pre Raw.parsedNonArray = ⟨[], true, true⟩ ∧
    (loadSelectedFromStorage [] Raw.missing).store = [] ∧
    (loadSelectedFromStorage [] Raw.unparseable).store = [] :=
  ⟨rfl, rfl, rfl, rfl, rfl⟩

/-- C8 counterexample: on a missing key `loadSelectedFromStorage` logs no
warning (the early-return path has no `console.warn`), contradicting the
claim that every degraded content logs one. -/
theorem c8_counterexample :
    (loadSelectedFromStorage [] Raw.missing).warned = false ∧
    (loadSelectedFromStorage [] Raw.missing).store = [] :=
  ⟨rfl, rfl⟩

theorem chatSubmit_empty (st : AppState) (text : String)
    (ht : jsTrim text = "") (o : RemoteOutcome) : chatSubmit st text o = st := by
  unfold chatSubmit
  rw [if_pos ht]

theorem chatSubmit_success_proj (st : AppState) (text r : String)
    (ht : jsTrim text ≠ "") :
    (chatSubmit st text (RemoteOutcome.success r)).conversation =
      st.conversation ++ [Msg.mk "user" (jsTrim text), Msg.mk "assistant" r] ∧
    (chatSubmit st text (RemoteOutcome.success r)).payloads =
      st.payloads ++ [st.conversation ++ [Msg.mk "user" (jsTrim text)]] ∧
    (chatSubmit st text (RemoteOutcome.success r)).sendDisabled = false := by
  unfold chatSubmit
  rw [if_neg ht]
  refine ⟨?_, rfl, rfl⟩
  simp

theorem chatSubmit_failure_proj (st : AppState) (text e : String)
    (ht : jsTrim text ≠ "") :
    (chatSubmit st text (RemoteOutcome.failure e)).conversation =
      st.conversation ++ [Msg.mk "user" (jsTrim text)] ∧
    (chatSubmit st text (RemoteOutcome.failure e)).transcript =
      st.transcript ++ [Msg.mk "user" (jsTrim text), Msg.mk "assistant" thinkingText,
        Msg.mk "assistant" ("Error: " ++ e)] ∧
    (chatSubmit st text (RemoteOutcome.failure e)).payloads =
      st.payloads ++ [st.conversation ++ [Msg.mk "user" (jsTrim text)]] ∧
    (chatSubmit st text (RemoteOutcome.failure e)).sendDisabled = false := by
  unfold chatSubmit
  rw [if_neg ht]
  refine ⟨rfl, ?_, rfl, rfl⟩
  simp

theorem generateClick_empty (st : AppState) (o : RemoteOutcome)
    (hsel : st.selected = []) :
    generateClick st o =
      { st with transcript := st.transcript ++ [Msg.mk "assistant" advisoryText] } := by
  unfold generateClick
  have hlen : (getSelectedProductsArray st.selected).length = 0 := by
    simp [getSelectedProductsArray, hsel]
  rw [if_pos hlen]

theorem generateClick_success_proj (st : AppState) (r : String)
    (hsel : st.selected ≠ []) :
    (generateClick st (RemoteOutcome.success r)).conversation =
      st.conversation ++
        [Msg.mk "user" (userInstruction (getSelectedProductsArray st.selected)),
         Msg.mk "assistant" r] ∧
    (generateClick st (RemoteOutcome.success r)).payloads =
      st.payloads ++
        [st.conversation ++
          [Msg.mk "user" (userInstruction (getSelectedProductsArray st.selected))]] := by
  have hlen : ¬(getSelectedProductsArray st.selected).length = 0 := by
    simp [getSelectedProductsArray, List.length_eq_zero, hsel]
  unfold generateClick
  rw [if_neg hlen]
  refine ⟨?_, rfl⟩
  simp

theorem generateClick_failure_proj (st : AppState) (e : String)
    (hsel : st.selected ≠ []) :
    (generateClick st (RemoteOutcome.failure e)).conversation =
      st.conversation ++
        [Msg.mk "user" (userInstruction (getSelectedProductsArray st.selected))] ∧
    (generateClick st (RemoteOutcome.failure e)).payloads =
      st.payloads ++
        [st.conversation ++
          [Msg.mk "user" (userInstruction (getSelectedProductsArray st.selected))]] := by
  have hlen : ¬(getSelectedProductsArray st.selected).length = 0 := by
    simp [getSelectedProductsArray, List.length_eq_zero, hsel]
  unfold generateClick
  rw [if_neg hlen]
  exact ⟨rfl, rfl⟩

theorem head?_append_system (c δ : List Msg) (h : c.head? = some systemMsg) :
    (c ++ δ).head? = some systemMsg := by
  cases c with
  | nil => simp at h
  | cons a t => simpa using h

theorem convInv_extend (c δ : List Msg) (h1 : c.head? = some systemMsg)
    (h2 : ∀ m ∈ c.tail, m.role ≠ "system")
    (hd : ∀ m ∈ δ, m.role ≠ "system") :
    (c ++ δ).head? = some systemMsg ∧
      ∀ m ∈ (c ++ δ).tail, m.role ≠ "system" := by
  cases c with
  | nil => simp at h1
  | cons a t =>
    refine ⟨by simpa using h1, ?_⟩
    intro m hm
    simp only [List.cons_append, List.tail_cons, List.mem_append] at hm
    rcases hm with hm | hm
    · exact h2 m (by simpa using hm)
    · exact hd m hm

theorem convInv_of_projections (st st' : AppState)
    (hc : st'.conversation = st.conversation)
    (hp : st'.payloads = st.payloads) (h : ConvInv st) : ConvInv st' := by
  obtain ⟨h1, h2, h3⟩ := h
  refine ⟨?_, ?_, ?_⟩
  · rw [hc]; exact h1
  · rw [hc]; exact h2
  · rw [hp]; exact h3

theorem convInv_after_call (st st' : AppState) (δ : List Msg) (u : Msg)
    (hd : ∀ m ∈ δ, m.role ≠ "system")
    (hc : st'.conversation = st.conversation ++ δ)
    (hp : st'.payloads = st.payloads ++ [st.conversation ++ [u]])
    (h : ConvInv st) : ConvInv st' := by
  obtain ⟨h1, h2, h3⟩ := h
  obtain ⟨g1, g2⟩ := convInv_extend st.conversation δ h1 h2 hd
  refine ⟨by rw [hc]; exact g1, by rw [hc]; exact g2, ?_⟩
  intro p hmem
  rw [hp] at hmem
  rcases List.mem_append.mp hmem with hold | hnew
  · exact h3 p hold
  · have huq : p = st.conversation ++ [u] := by simpa using hnew
    rw [huq]
    exact head?_append_system _ _ h1

theorem toggleSelect_conv_payloads (st : AppState) (i : Nat) (ok : Bool) :
    (toggleSelect st i ok).1.conversation = st.conversation ∧
    (toggleSelect st i ok).1.payloads = st.payloads := by
  unfold toggleSelect
  cases h : st.displayed.find? (fun p => p.id = i) <;> simp

theorem convInv_step (st : AppState) (e : Event) (h : ConvInv st) :
    ConvInv (step st e) := by
  cases e with
  | display ps => exact h
  | toggle id ok =>
    obtain ⟨hc, hp⟩ := toggleSelect_conv_payloads st id ok
    exact convInv_of_projections st _ hc hp h
  | chipRemove id ok => exact h
  | chat text o =>
    show ConvInv (chatSubmit st text o)
    by_cases ht : jsTrim text = ""
    · rw [chatSubmit_empty st text ht o]
      exact h
    · cases o with
      | success r =>
        obtain ⟨hc, hp, _⟩ := chatSubmit_success_proj st text r ht
        refine convInv_after_call st _ _ (Msg.mk "user" (jsTrim text)) ?_ hc hp h
        intro m hm
        simp only [List.mem_cons, List.not_mem_nil, or_false] at hm
        rcases hm with rfl | rfl <;> simp
      | failure e =>
        obtain ⟨hc, _, hp, _⟩ := chatSubmit_failure_proj st text e ht
        refine convInv_after_call st _ _ (Msg.mk "user" (jsTrim text)) ?_ hc hp h
        intro m hm
        simp only [List.mem_cons, List.not_mem_nil, or_false] at hm
        subst hm
        simp
  | generate o =>
    show ConvInv (generateClick st o)
    by_cases hsel : st.selected = []
    · rw [generateClick_empty st o hsel]
      exact h
    · cases o with
      | success r =>
        obtain ⟨hc, hp⟩ := generateClick_success_proj st r hsel
        refine convInv_after_call st _ _
          (Msg.mk "user" (userInstruction (getSelectedProductsArray st.selected)))
          ?_ hc hp h
        intro m hm
        simp only [List.mem_cons, List.not_mem_nil, or_false] at hm
        rcases hm with rfl | rfl <;> simp
      | failure e =>
        obtain ⟨hc, hp⟩ := generateClick_failure_proj st e hsel
        refine convInv_after_call st _ _
          (Msg.mk "user" (userInstruction (getSelectedProductsArray st.selected)))
          ?_ hc hp h
        intro m hm
        simp only [List.mem_cons, List.not_mem_nil, or_false] at hm
        subst hm
        simp

theorem convInv_foldl (evs : List Event) :
    ∀ st : AppState, ConvInv st → ConvInv (evs.foldl step st) := by
  induction evs with
  | nil => intro st h; simpa using h
  | cons e rest ih =>
    intro st h
    rw [List.foldl_cons]
    exact ih _ (convInv_step st e h)

theorem convInv_init (raw : Raw) : ConvInv (initState raw) := by
  refine ⟨rfl, ?_, ?_⟩ <;> intro m hm <;> simp [initState] at hm

theorem reachable_convInv (st : AppState) (h : Reachable st) : ConvInv st := by
  obtain ⟨raw, evs, hrun⟩ := h
  rw [← hrun]
  exact convInv_foldl evs _ (convInv_init raw)

/-- C4: when the remote call of a chat submission fails, the Conversation
Log ends exactly one turn longer (only the user turn persists, no
assistant turn is appended), the transcript ends with an error bubble
derived from the failure message, and the submit affordance is
re-enabled. -/
theorem c4_failed_chat (st : AppState) (text e : String)
    (ht : jsTrim text ≠ "") :
    (chatSubmit st text (RemoteOutcome.failure e)).conversation =
      st.conversation ++ [Msg.mk "user" (jsTrim text)] ∧
    (chatSubmit st text (RemoteOutcome.failure e)).conversation.length =
      st.conversation.length + 1 ∧
    (chatSubmit st text (RemoteOutcome.failure e)).transcript.getLast? =
      some (Msg.mk "assistant" ("Error: " ++ e)) ∧
    (chatSubmit st text (RemoteOutcome.failure e)).sendDisabled = false := by
  obtain ⟨hc, htr, _, hs⟩ := chatSubmit_failure_proj st text e ht
  refine ⟨hc, by rw [hc]; simp, ?_, hs⟩
  rw [htr]
  have hsplit :
      st.transcript ++ [Msg.mk "user" (jsTrim text),
        Msg.mk "assistant" thinkingText,
        Msg.mk "assistant" ("Error: " ++ e)] =
      (st.transcript ++ [Msg.mk "user" (jsTrim text),
        Msg.mk "assistant" thinkingText]) ++
        [Msg.mk "assistant" ("Error: " ++ e)] := by
    simp
  rw [hsplit, List.getLast?_concat]

/-- Witness for `c4_failed_chat` on startup state, input "hi", error
"boom". -/
theorem c4_failed_chat_witness :
    jsTrim "hi" ≠ "" ∧
    ((chatSubmit (initState Raw.missing) "hi"
        (RemoteOutcome.failure "boom")).conversation =
      (initState Raw.missing).conversation ++ [Msg.mk "user" (jsTrim "hi")] ∧
    (chatSubmit (initState Raw.missing) "hi"
        (RemoteOutcome.failure "boom")).conversation.length =
      (initState Raw.missing).conversation.length + 1 ∧
    (chatSubmit (initState Raw.missing) "hi"
        (RemoteOutcome.failure "boom")).transcript.getLast? =
      some (Msg.mk "assistant" ("Error: " ++ "boom")) ∧
    (chatSubmit (initState Raw.missing) "hi"
        (RemoteOutcome.failure "boom")).sendDisabled = false) :=
  ⟨by decide, c4_failed_chat (initState Raw.missing) "hi" "boom" (by decide)⟩

/-- C5: in every reachable state the Conversation Log opens with the fixed
system turn and contains no other system-role turn; a successful chat
exchange appends exactly one user turn followed by one assistant turn,
and so does a successful routine generation with a non-empty selection —
nothing else is interleaved. -/
theorem c5_log_shape (st : AppState) (hre : Reachable st) (text r : String)
    (ht : jsTrim text ≠ "") (hsel : st.selected ≠ []) :
    (st.conversation.head? = some systemMsg ∧
      st.conversation.tail.all (fun m => m.role ≠ "system") = true) ∧
    (chatSubmit st text (RemoteOutcome.success r)).conversation =
      st.conversation ++ [Msg.mk "user" (jsTrim text), Msg.mk "assistant" r] ∧
    (generateClick st (RemoteOutcome.success r)).conversation =
      st.conversation ++
        [Msg.mk "user" (userInstruction (getSelectedProductsArray st.selected)),
         Msg.mk "assistant" r] := by
  obtain ⟨h1, h2, _⟩ := reachable_convInv st hre
  refine ⟨⟨h1, ?_⟩, (chatSubmit_success_proj st text r ht).1,
    (generateClick_success_proj st r hsel).1⟩
  rw [List.all_eq_true]
  intro m hm
  exact decide_eq_true (h2 m hm)

/-- Witness for `c5_log_shape` on the reachable state `stA`. -/
theorem c5_log_shape_witness :
    (Reachable stA ∧ jsTrim "hi" ≠ "" ∧ stA.selected ≠ []) ∧
    ((stA.conversation.head? = some systemMsg ∧
        stA.conversation.tail.all (fun m => m.role ≠ "system") = true) ∧
      (chatSubmit stA "hi" (RemoteOutcome.success "ok")).conversation =
        stA.conversation ++ [Msg.mk "user" (jsTrim "hi"),
          Msg.mk "assistant" "ok"] ∧
      (generateClick stA (RemoteOutcome.success "ok")).conversation =
        stA.conversation ++
          [Msg.mk "user" (userInstruction (getSelectedProductsArray stA.selected)),
           Msg.mk "assistant" "ok"]) :=
  ⟨⟨⟨Raw.parsedArray [prodA], [], rfl⟩, by decide, by decide⟩,
   c5_log_shape stA ⟨Raw.parsedArray [prodA], [], rfl⟩ "hi" "ok"
     (by decide) (by decide)⟩

/-- C6: triggering routine generation on an empty Selection Store appends
exactly one assistant advisory bubble and performs no network call (the
payload list is unchanged); the whole state change is that single bubble. -/
theorem c6_empty_selection_shortcircuit (st : AppState) (o : RemoteOutcome)
    (hsel : st.selected = []) :
    generateClick st o =
      { st with transcript :=
          st.transcript ++ [Msg.mk "assistant" advisoryText] } ∧
    (generateClick st o).transcript =
      st.transcript ++ [Msg.mk "assistant" advisoryText] ∧
    (generateClick st o).payloads = st.payloads := by
  have he := generateClick_empty st o hsel
  exact ⟨he, by rw [he], by rw [he]⟩

/-- Witness for `c6_empty_selection_shortcircuit` at startup on empty
storage. -/
theorem c6_empty_selection_shortcircuit_witness :
    (initState Raw.missing).selected = [] ∧
    (generateClick (initState Raw.missing) (RemoteOutcome.success "r") =
      { initState Raw.missing with transcript :=
          (initState Raw.missing).transcript ++
            [Msg.mk "assistant" advisoryText] } ∧
    (generateClick (initState Raw.missing)
        (RemoteOutcome.success "r")).transcript =
      (initState Raw.missing).transcript ++
        [Msg.mk "assistant" advisoryText] ∧
    (generateClick (initState Raw.missing)
        (RemoteOutcome.success "r")).payloads =
      (initState Raw.missing).payloads) :=
  ⟨rfl, c6_empty_selection_shortcircuit (initState Raw.missing)
    (RemoteOutcome.success "r") rfl⟩

/-- C7: whenever a chat submission or a routine generation issues its
network call, the recorded payload is exactly the full Conversation Log at
call time — every turn accumulated so far followed by the new user turn —
and in a reachable state every recorded payload begins with the system
instruction turn. -/
theorem c7_payload_full_log (st : AppState) (hre : Reachable st)
    (text : String) (o o' : RemoteOutcome) (ht : jsTrim text ≠ "")
    (hsel : st.selected ≠ []) :
    (chatSubmit st text o).payloads =
      st.payloads ++ [st.conversation ++ [Msg.mk "user" (jsTrim text)]] ∧
    (generateClick st o').payloads =
      st.payloads ++
        [st.conversation ++
          [Msg.mk "user" (userInstruction (getSelectedProductsArray st.selected))]] ∧
    (chatSubmit st text o).payloads.all
      (fun p => p.head? = some systemMsg) = true ∧
    (generateClick st o').payloads.all
      (fun p => p.head? = some systemMsg) = true := by
  obtain ⟨h1, _, h3⟩ := reachable_convInv st hre
  have hchat : (chatSubmit st text o).payloads =
      st.payloads ++ [st.conversation ++ [Msg.mk "user" (jsTrim text)]] := by
    cases o with
    | success r => exact (chatSubmit_success_proj st text r ht).2.1
    | failure e => exact (chatSubmit_failure_proj st text e ht).2.2.1
  have hgen : (generateClick st o').payloads =
      st.payloads ++
        [st.conversation ++
          [Msg.mk "user" (userInstruction (getSelectedProductsArray st.selected))]] := by
    cases o' with
    | success r => exact (generateClick_success_proj st r hsel).2
    | failure e => exact (generateClick_failure_proj st e hsel).2
  have hall : ∀ (u : Msg),
      (st.payloads ++ [st.conversation ++ [u]]).all
        (fun p => p.head? = some systemMsg) = true := by
    intro u
    rw [List.all_eq_true]
    intro p hp
    rcases List.mem_append.mp hp with hold | hnew
    · exact decide_eq_true (h3 p hold)
    · have hq : p = st.conversation ++ [u] := by simpa using hnew
      rw [hq]
      exact decide_eq_true (head?_append_system _ _ h1)
  exact ⟨hchat, hgen, by rw [hchat]; exact hall _, by rw [hgen]; exact hall _⟩

/-- Witness for `c7_payload_full_log` on the reachable state `stA`. -/
theorem c7_payload_full_log_witness :
    (Reachable stA ∧ jsTrim "hey" ≠ "" ∧ stA.selected ≠ []) ∧
    ((chatSubmit stA "hey" (RemoteOutcome.failure "x")).payloads =
      stA.payloads ++ [stA.conversation ++ [Msg.mk "user" (jsTrim "hey")]] ∧
    (generateClick stA (RemoteOutcome.success "r")).payloads =
      stA.payloads ++
        [stA.conversation ++
          [Msg.mk "user" (userInstruction (getSelectedProductsArray stA.selected))]] ∧
    (chatSubmit stA "hey" (RemoteOutcome.failure "x")).payloads.all
      (fun p => p.head? = some systemMsg) = true ∧
    (generateClick stA (RemoteOutcome.success "r")).payloads.all
      (fun p => p.head? = some systemMsg) = true) :=
  ⟨⟨⟨Raw.parsedArray [prodA], [], rfl⟩, by decide, by decide⟩,
   c7_payload_full_log stA ⟨Raw.parsedArray [prodA], [], rfl⟩ "hey"
     (RemoteOutcome.failure "x") (RemoteOutcome.success "r")
     (by decide) (by decide)⟩

/-- C10: the empty-selection advisory goes only to the visible transcript;
the Conversation Log, the recorded payloads, the Selection Store and the
storage cell are all left exactly as they were, so the advisory can never
appear in a later request payload. -/
theorem c10_advisory_only_transcript (st : AppState) (o : RemoteOutcome)
    (hsel : st.selected = []) :
    (generateClick st o).conversation = st.conversation ∧
    (generateClick st o).transcript =
      st.transcript ++ [Msg.mk "assistant" advisoryText] ∧
    (generateClick st o).payloads = st.payloads ∧
    (generateClick st o).selected = st.selected ∧
    (generateClick st o).storage = st.storage := by
  rw [generateClick_empty st o hsel]
  exact ⟨rfl, rfl, rfl, rfl, rfl⟩

/-- Witness for `c10_advisory_only_transcript` at startup on empty
storage, with a failing outcome parameter (irrelevant: no call is made). -/
theorem c10_advisory_only_transcript_witness :
    (initState Raw.missing).selected = [] ∧
    ((generateClick (initState Raw.missing)
        (RemoteOutcome.failure "e")).conversation =
      (initState Raw.missing).conversation ∧
    (generateClick (initState Raw.missing)
        (RemoteOutcome.failure "e")).transcript =
      (initState Raw.missing).transcript ++ [Msg.mk "assistant" advisoryText] ∧
    (generateClick (initState Raw.missing)
        (RemoteOutcome.failure "e")).payloads =
      (initState Raw.missing).payloads ∧
    (generateClick (initState Raw.missing)
        (RemoteOutcome.failure "e")).selected =
      (initState Raw.missing).selected ∧
    (generateClick (initState Raw.missing)
        (RemoteOutcome.failure "e")).storage =
      (initState Raw.missing).storage) :=
  ⟨rfl, c10_advisory_only_transcript (initState Raw.missing)
    (RemoteOutcome.failure "e") rfl⟩
